import Mathlib

set_option maxHeartbeats 1000000
set_option maxRecDepth 40000

namespace AiMarker

/-! Shallow embedding of the ai-marker repository core, working over `List Char`
as the model of JavaScript strings.  Sources: `src/app/lib/openai.ts`,
`src/app/lib/batch-utils.ts`, `src/app/lib/document-utils.ts` and the improved
local marking engine (`src/unnamed/part_005`).

Recursions whose measure is not structural (regex-style scans that consume a
variable number of characters per step) are written with an explicit fuel
parameter initialised to the string length, which is always sufficient; this
keeps every definition kernel-reducible so that concrete inputs evaluate. -/

/-- JavaScript whitespace class `\s` (the set used by `String.prototype.trim`,
`\s` in regexes and `split(/\s+/)`): ASCII whitespace plus the Unicode space
separators, NBSP, line/paragraph separators and the BOM. -/
def isWS (c : Char) : Bool :=
  c = ' ' || c = '\t' || c = '\n' || c = '\r' || c = '\x0b' || c = '\x0c' ||
  c = ' ' || c = ' ' || (' ' ≤ c && c ≤ ' ') || c = ' ' ||
  c = ' ' || c = ' ' || c = ' ' || c = '　' || c = '﻿'

/-- Sentence terminator class `[.!?]` used by the sentence-split fallback in
`chunkDocument` (openai.ts line 43). -/
def isTerm (c : Char) : Bool :=
  c = '.' || c = '!' || c = '?'

/-- Characters that are neither whitespace nor sentence terminators; the
payload characters that chunking is expected to preserve. -/
def keepChar (c : Char) : Bool :=
  !(isWS c) && !(isTerm c)

/-- Non-whitespace characters (used to state the round-trip claim exactly as
written). -/
def nonWSChar (c : Char) : Bool :=
  !(isWS c)

/-- Token estimation from openai.ts lines 20-22:
`estimateTokens(text) = Math.ceil(text.length / 4)`. -/
def estimateTokens (text : List Char) : Nat :=
  (text.length + 3) / 4

/-- JavaScript `String.prototype.trim`: drop leading and trailing `\s`
characters. -/
def trim (cs : List Char) : List Char :=
  ((cs.dropWhile isWS).reverse.dropWhile isWS).reverse

/-- Auxiliary for splitting a string at every single `'\n'`
(JS `content.split(/\n/)`, openai.ts line 38). -/
def splitNLAux : List Char → List Char → List (List Char)
  | [], acc => [acc.reverse]
  | c :: rest, acc =>
    if c = '\n' then acc.reverse :: splitNLAux rest []
    else splitNLAux rest (c :: acc)

/-- JS `content.split(/\n/)`. -/
def splitNL (cs : List Char) : List (List Char) :=
  splitNLAux cs []

/-- The length of `dropWhile` output never exceeds the input length. -/
theorem length_dropWhile_le (p : Char → Bool) (l : List Char) :
    (l.dropWhile p).length ≤ l.length := by
  induction l with
  | nil => simp [List.dropWhile]
  | cons c rest ih =>
    by_cases h : p c
    · simp [List.dropWhile, h]; omega
    · simp [List.dropWhile, h]

/-- Auxiliary for splitting a string at every maximal run of characters
satisfying `p` (JS `split(/[.!?]+/)` when `p = isTerm`, and JS `split(/\s+/)`
when `p = isWS`): on meeting a `p`-character, close the accumulated piece and
skip the whole run.  Fuel-indexed; fuel equal to the string length is always
sufficient. -/
def splitRunsAuxF (p : Char → Bool) : Nat → List Char → List Char → List (List Char)
  | _, [], acc => [acc.reverse]
  | 0, _ :: _, acc => [acc.reverse]
  | Nat.succ fuel, c :: rest, acc =>
    if p c then acc.reverse :: splitRunsAuxF p fuel (rest.dropWhile p) []
    else splitRunsAuxF p fuel rest (c :: acc)

/-- JS `split` on a regular expression matching nonempty runs of
`p`-characters. -/
def splitOnRuns (p : Char → Bool) (cs : List Char) : List (List Char) :=
  splitRunsAuxF p cs.length cs []

/-- The separator consumed by a leftmost match of `/\n\s*\n/` after its first
`'\n'`: the greedy `\s*` run, backtracked so that the match ends at the last
`'\n'` inside that run.  Empty when the whitespace run after the first `'\n'`
contains no further `'\n'`, i.e. when the regex does not match here. -/
def paraSep (rest : List Char) : List Char :=
  ((rest.takeWhile isWS).reverse.dropWhile (fun c => !(c = '\n'))).reverse

/-- Auxiliary for JS `content.split(/\n\s*\n/)` (openai.ts line 34): scan left
to right, and at each `'\n'` whose following whitespace run contains another
`'\n'`, cut the string there, consuming the separator.  Fuel-indexed; fuel
equal to the string length is always sufficient. -/
def paraSplitAuxF : Nat → List Char → List Char → List (List Char)
  | _, [], acc => [acc.reverse]
  | 0, _ :: _, acc => [acc.reverse]
  | Nat.succ fuel, c :: rest, acc =>
    if c = '\n' ∧ paraSep rest ≠ [] then
      acc.reverse :: paraSplitAuxF fuel (rest.drop (paraSep rest).length) []
    else paraSplitAuxF fuel rest (c :: acc)

/-- JS `content.split(/\n\s*\n/)` — split on blank-line paragraph
boundaries. -/
def paraSplit (cs : List Char) : List (List Char) :=
  paraSplitAuxF cs.length cs []

/-- The accumulation loop of `chunkDocument` (openai.ts lines 46-62): greedily
pack sections into a running chunk, separated by a blank line; when adding the
next section would push the estimate over budget and the running chunk is
nonempty, close the running chunk (trimmed) and restart from that section.  The
final running chunk is pushed if it trims to something nonempty. -/
def buildChunks (maxTokens : Nat) : List (List Char) → List Char → List (List Char)
  | [], current => if 0 < (trim current).length then [trim current] else []
  | s :: rest, current =>
    if maxTokens <
          estimateTokens (current ++ (if current.isEmpty then [] else ['\n', '\n']) ++ s) ∧
        0 < current.length then
      trim current :: buildChunks maxTokens rest s
    else
      buildChunks maxTokens rest (current ++ (if current.isEmpty then [] else ['\n', '\n']) ++ s)

/-- Fixed-width slicing of one oversized chunk (openai.ts lines 73-75): emit
`chunk.substring(i, i + charLimit)` for `i = 0, charLimit, 2·charLimit, …`.
Fuel-indexed, fuel equal to the string length always sufficient.  The JS loop
does not terminate when `charLimit = 0`; that case is unreachable for a
positive token budget and is modelled as the empty list. -/
def sliceEveryF (k : Nat) : Nat → List Char → List (List Char)
  | _, [] => []
  | 0, _ :: _ => []
  | Nat.succ fuel, c :: rest =>
    if k = 0 then []
    else (c :: rest).take k :: sliceEveryF k fuel ((c :: rest).drop k)

/-- Slice a string into consecutive pieces of width `k`. -/
def sliceEvery (k : Nat) (cs : List Char) : List (List Char) :=
  sliceEveryF k cs.length cs

/-- The force-split pass of `chunkDocument` (openai.ts lines 66-79): chunks
within the character limit pass through unchanged, oversized ones are sliced
at the fixed character width. -/
def forceSplit (charLimit : Nat) (base : List (List Char)) : List (List Char) :=
  (base.map fun c => if c.length ≤ charLimit then [c] else sliceEvery charLimit c).flatten

/-- First rung of the fallback ladder of `chunkDocument` (openai.ts line 34):
split by blank-line paragraphs, discarding sections that trim to the empty
string. -/
def ladder1 (content : List Char) : List (List Char) :=
  (paraSplit content).filter fun s => 0 < (trim s).length

/-- Second rung (openai.ts lines 37-39): if the paragraph split yields exactly
one section, split by single newlines instead. -/
def ladder2 (content : List Char) : List (List Char) :=
  if (ladder1 content).length = 1 then
    (splitNL content).filter (fun s => 0 < (trim s).length)
  else ladder1 content

/-- The full fallback ladder (openai.ts lines 33-44): if the result is still a
single section, split by sentence terminators. -/
def ladderSections (content : List Char) : List (List Char) :=
  if (ladder2 content).length = 1 then
    (splitOnRuns isTerm content).filter (fun s => 0 < (trim s).length)
  else ladder2 content

/-- The final stage of `chunkDocument` (openai.ts lines 64-82): if the
accumulated chunk list is empty or some chunk still exceeds the budget,
force-split (the chunks, or the whole content when there are none) at
`maxTokens * 4` characters; otherwise return the accumulated chunks. -/
def chunkAssemble (maxTokens : Nat) (content : List Char) (chunks : List (List Char)) :
    List (List Char) :=
  if chunks = [] ∨ ∃ c ∈ chunks, maxTokens < estimateTokens c then
    forceSplit (maxTokens * 4) (if chunks = [] then [content] else chunks)
  else chunks

/-- `chunkDocument` from openai.ts lines 25-83: return `[content]` unchanged
when it fits the budget, otherwise run the fallback ladder, the accumulation
loop, and the force-split pass. -/
def chunkDocument (content : List Char) (maxTokens : Nat) : List (List Char) :=
  if estimateTokens content ≤ maxTokens then [content]
  else chunkAssemble maxTokens content (buildChunks maxTokens (ladderSections content) [])

/-- Every piece produced by `sliceEveryF` has length at most `k`. -/
theorem sliceEveryF_length_le {k : Nat} :
    ∀ (n : Nat) (cs : List Char), ∀ c ∈ sliceEveryF k n cs, c.length ≤ k := by
  intro n
  induction n with
  | zero =>
    intro cs c hc
    cases cs <;> simp [sliceEveryF] at hc
  | succ n ih =>
    intro cs c hc
    cases cs with
    | nil => simp [sliceEveryF] at hc
    | cons a rest =>
      rw [sliceEveryF] at hc
      split at hc
      · simp at hc
      · rcases List.mem_cons.mp hc with h1 | h1
        · subst h1
          simpa using List.length_take_le k _
        · exact ih _ c h1

/-- Every piece produced by `sliceEvery k` has length at most `k`. -/
theorem sliceEvery_length_le {k : Nat} {cs c : List Char}
    (hc : c ∈ sliceEvery k cs) : c.length ≤ k :=
  sliceEveryF_length_le cs.length cs c hc

/-- With enough fuel and positive width, the slices concatenate back to the
input. -/
theorem sliceEveryF_flatten {k : Nat} (hk : 1 ≤ k) :
    ∀ (n : Nat) (cs : List Char), cs.length ≤ n → (sliceEveryF k n cs).flatten = cs := by
  intro n
  induction n with
  | zero =>
    intro cs hcs
    have hnil : cs = [] := List.length_eq_zero.mp (Nat.le_zero.mp hcs)
    simp [hnil, sliceEveryF]
  | succ n ih =>
    intro cs hcs
    cases cs with
    | nil => simp [sliceEveryF]
    | cons a rest =>
      rw [sliceEveryF, if_neg (by omega)]
      simp only [List.flatten_cons]
      rw [ih ((a :: rest).drop k)
        (by simp only [List.length_drop, List.length_cons]
            simp only [List.length_cons] at hcs
            omega)]
      exact List.take_append_drop _ _

/-- Concatenating the slices of `sliceEvery k` (for positive `k`) recovers the
sliced list exactly. -/
theorem sliceEvery_join {k : Nat} (hk : 1 ≤ k) (cs : List Char) :
    (sliceEvery k cs).flatten = cs :=
  sliceEveryF_flatten hk cs.length cs le_rfl

/-- Every chunk emitted by the force-split pass is at most `charLimit`
characters long. -/
theorem forceSplit_length_le {k : Nat} (base : List (List Char)) :
    ∀ c ∈ forceSplit k base, c.length ≤ k := by
  intro c hc
  simp only [forceSplit, List.mem_flatten, List.mem_map] at hc
  obtain ⟨l, ⟨a, _, rfl⟩, hcl⟩ := hc
  split at hcl
  · next h =>
    simp only [List.mem_singleton] at hcl
    subst hcl
    exact h
  · exact sliceEvery_length_le hcl

/-- C1 bound at the assembly stage, for arbitrary chunk lists. -/
theorem chunkAssemble_token_bound (m : Nat) (hm : 1 ≤ m) (content : List Char)
    (chunks : List (List Char)) :
    ∀ c ∈ chunkAssemble m content chunks, estimateTokens c ≤ m := by
  intro c hc
  rw [chunkAssemble] at hc
  split at hc
  · have hlen : c.length ≤ m * 4 := forceSplit_length_le _ c hc
    simp only [estimateTokens]
    omega
  · next h =>
    push_neg at h
    have := h.2 c hc
    omega

/-- C1: for every text and positive budget, every chunk produced by
`chunkDocument` estimates at most the budget: the paragraph/newline/sentence
fallback ladder followed by the force-slice at `maxTokens * 4` characters never
yields a chunk whose token estimate exceeds the budget. -/
theorem chunkDocument_token_bound (content : List Char) (m : Nat) (hm : 1 ≤ m) :
    ∀ c ∈ chunkDocument content m, estimateTokens c ≤ m := by
  intro c hc
  rw [chunkDocument] at hc
  split at hc
  · next h1 =>
    rw [List.mem_singleton] at hc
    subst hc
    exact h1
  · exact chunkAssemble_token_bound m hm content _ c hc

/-- Witness for C1 at a concrete oversized input and budget 1. -/
theorem chunkDocument_token_bound_witness :
    1 ≤ 1 ∧ ∀ c ∈ chunkDocument (List.replicate 9 'a') 1, estimateTokens c ≤ 1 :=
  ⟨by decide, chunkDocument_token_bound (List.replicate 9 'a') 1 (by decide)⟩

/-- C8 counterexample: on the empty string (budget 1) `chunkDocument` returns
the one-element sequence containing the empty chunk, not the empty sequence of
chunks claimed. -/
theorem chunkDocument_empty_counterexample :
    chunkDocument [] 1 = [[]] ∧ chunkDocument [] 1 ≠ ([] : List (List Char)) := by
  constructor
  · decide
  · decide

/-- C8 amended: `chunkDocument` applied to the empty string returns the
one-element sequence consisting of the empty string (the small-content early
return fires, since the empty string estimates to 0 tokens). -/
theorem chunkDocument_empty (m : Nat) : chunkDocument [] m = [[]] := by
  rw [chunkDocument]
  simp [estimateTokens]

/-- Whitespace characters are not payload characters. -/
theorem keepChar_eq_false_of_ws {c : Char} (h : isWS c = true) : keepChar c = false := by
  simp [keepChar, h]

/-- Sentence terminators are not payload characters. -/
theorem keepChar_eq_false_of_term {c : Char} (h : isTerm c = true) : keepChar c = false := by
  simp [keepChar, h]

/-- A list of whitespace characters has no payload characters. -/
theorem filter_keep_eq_nil_of_allWS {s : List Char} (h : ∀ c ∈ s, isWS c = true) :
    s.filter keepChar = [] := by
  induction s with
  | nil => rfl
  | cons c rest ih =>
    have hc : keepChar c = false := keepChar_eq_false_of_ws (h c (by simp))
    simp only [List.filter_cons, hc, Bool.false_eq_true, if_false]
    exact ih fun x hx => h x (by simp [hx])

/-- Dropping a prefix of non-payload characters does not change the payload. -/
theorem filter_keep_dropWhile {p : Char → Bool}
    (hp : ∀ c, p c = true → keepChar c = false) (l : List Char) :
    (l.dropWhile p).filter keepChar = l.filter keepChar := by
  induction l with
  | nil => rfl
  | cons c rest ih =>
    by_cases h : p c
    · rw [List.dropWhile_cons_of_pos h, ih]
      simp [List.filter_cons, hp c h]
    · rw [List.dropWhile_cons_of_neg h]

/-- Trimming does not change the payload. -/
theorem filter_keep_trim (s : List Char) :
    (trim s).filter keepChar = s.filter keepChar := by
  unfold trim
  rw [List.filter_reverse,
    filter_keep_dropWhile (fun c => keepChar_eq_false_of_ws),
    List.filter_reverse, List.reverse_reverse,
    filter_keep_dropWhile (fun c => keepChar_eq_false_of_ws)]

/-- Every character of a trim-empty string is whitespace. -/
theorem allWS_of_trim_eq_nil {s : List Char} (h : (trim s).length = 0) :
    ∀ c ∈ s, isWS c = true := by
  unfold trim at h
  rw [List.length_reverse, List.length_eq_zero, List.dropWhile_eq_nil_iff] at h
  have hdrop : ∀ c ∈ s.dropWhile isWS, isWS c = true := by
    intro c hc
    exact h c (by simpa using hc)
  intro c hc
  rw [← List.takeWhile_append_dropWhile isWS s] at hc
  rcases List.mem_append.mp hc with h1 | h1
  · exact List.mem_takeWhile_imp h1
  · exact hdrop c h1

/-- Discarding trim-empty sections does not change the payload of the
concatenation. -/
theorem filter_keep_sections (l : List (List Char)) :
    ((l.filter fun s => 0 < (trim s).length).flatten).filter keepChar =
      (l.flatten).filter keepChar := by
  induction l with
  | nil => rfl
  | cons s rest ih =>
    by_cases h : 0 < (trim s).length
    · rw [List.filter_cons, if_pos (by simpa using h)]
      simp [List.filter_append, ih]
    · rw [List.filter_cons, if_neg (by simpa using h)]
      have hs : s.filter keepChar = [] :=
        filter_keep_eq_nil_of_allWS (allWS_of_trim_eq_nil (by omega))
      simp [List.filter_append, ih, hs]

/-- Splitting at single newlines preserves the payload of the concatenation. -/
theorem splitNLAux_filter_keep (cs : List Char) : ∀ (acc : List Char),
    ((splitNLAux cs acc).flatten).filter keepChar =
      (acc.reverse ++ cs).filter keepChar := by
  induction cs with
  | nil => intro acc; simp [splitNLAux]
  | cons c rest ih =>
    intro acc
    by_cases h : c = '\n'
    · subst h
      rw [splitNLAux, if_pos rfl]
      simp only [List.flatten_cons, List.filter_append, ih []]
      have hnl : keepChar '\n' = false := by decide
      simp [List.filter_append, List.filter_cons, hnl]
    · rw [splitNLAux, if_neg h, ih (c :: acc)]
      simp [List.filter_append]

/-- Splitting at runs of non-payload characters preserves the payload of the
concatenation. -/
theorem splitRunsAuxF_filter_keep {p : Char → Bool}
    (hp : ∀ c, p c = true → keepChar c = false) :
    ∀ (n : Nat) (cs acc : List Char), cs.length ≤ n →
      ((splitRunsAuxF p n cs acc).flatten).filter keepChar =
        (acc.reverse ++ cs).filter keepChar := by
  intro n
  induction n with
  | zero =>
    intro cs acc hcs
    have hnil : cs = [] := List.length_eq_zero.mp (Nat.le_zero.mp hcs)
    subst hnil
    simp [splitRunsAuxF]
  | succ n ih =>
    intro cs acc hcs
    match cs with
    | [] => simp [splitRunsAuxF]
    | c :: rest =>
      by_cases h : p c
      · rw [splitRunsAuxF, if_pos h]
        have hlen : (rest.dropWhile p).length ≤ n := by
          have := length_dropWhile_le p rest
          simp at hcs
          omega
        simp only [List.flatten_cons, List.filter_append, ih (rest.dropWhile p) [] hlen]
        simp only [List.reverse_nil, List.nil_append, filter_keep_dropWhile hp]
        simp [List.filter_append, List.filter_cons, hp c h]
      · rw [splitRunsAuxF, if_neg h]
        have hlen : rest.length ≤ n := by simp at hcs; omega
        rw [ih rest (c :: acc) hlen]
        simp [List.filter_append]

/-- Every character of a prefix shorter than the leading whitespace run is
whitespace. -/
theorem ws_of_mem_take_takeWhile {l : List Char} :
    ∀ {n : Nat}, n ≤ (l.takeWhile isWS).length → ∀ a ∈ l.take n, isWS a = true := by
  induction l with
  | nil => simp
  | cons c rest ih =>
    intro n hn a ha
    by_cases h : isWS c
    · rw [List.takeWhile_cons_of_pos h] at hn
      match n with
      | 0 => simp at ha
      | Nat.succ m =>
        rw [List.take_succ_cons] at ha
        rcases List.mem_cons.mp ha with h1 | h1
        · subst h1; exact h
        · exact ih (by simpa using hn) a h1
    · rw [List.takeWhile_cons_of_neg h] at hn
      simp at hn
      subst hn
      simp at ha

/-- The paragraph separator remainder is no longer than the leading whitespace
run. -/
theorem paraSep_length_le (rest : List Char) :
    (paraSep rest).length ≤ (rest.takeWhile isWS).length := by
  unfold paraSep
  rw [List.length_reverse]
  calc ((rest.takeWhile isWS).reverse.dropWhile fun c => !(c = '\n')).length
      ≤ (rest.takeWhile isWS).reverse.length := length_dropWhile_le _ _
    _ = (rest.takeWhile isWS).length := List.length_reverse _

/-- Splitting at blank-line paragraph boundaries preserves the payload of the
concatenation. -/
theorem paraSplitAuxF_filter_keep :
    ∀ (n : Nat) (cs acc : List Char), cs.length ≤ n →
      ((paraSplitAuxF n cs acc).flatten).filter keepChar =
        (acc.reverse ++ cs).filter keepChar := by
  intro n
  induction n with
  | zero =>
    intro cs acc hcs
    have hnil : cs = [] := List.length_eq_zero.mp (Nat.le_zero.mp hcs)
    subst hnil
    simp [paraSplitAuxF]
  | succ n ih =>
    intro cs acc hcs
    match cs with
    | [] => simp [paraSplitAuxF]
    | c :: rest =>
      by_cases h : c = '\n' ∧ paraSep rest ≠ []
      · rw [paraSplitAuxF, if_pos h]
        have hlen : (rest.drop (paraSep rest).length).length ≤ n := by
          simp only [List.length_drop]
          simp at hcs
          omega
        simp only [List.flatten_cons, List.filter_append,
          ih (rest.drop (paraSep rest).length) [] hlen]
        have htake : (rest.take (paraSep rest).length).filter keepChar = [] :=
          filter_keep_eq_nil_of_allWS
            (ws_of_mem_take_takeWhile (paraSep_length_le rest))
        have hrest : rest.filter keepChar =
            (rest.drop (paraSep rest).length).filter keepChar := by
          conv_lhs => rw [← List.take_append_drop (paraSep rest).length rest]
          rw [List.filter_append, htake, List.nil_append]
        have hnl : keepChar c = false := by
          rw [h.1]; decide
        simp [List.filter_append, List.filter_cons, hnl, hrest]
      · rw [paraSplitAuxF, if_neg h]
        have hlen : rest.length ≤ n := by simp at hcs; omega
        rw [ih rest (c :: acc) hlen]
        simp [List.filter_append]

/-- The accumulation loop preserves the payload of the concatenation. -/
theorem buildChunks_filter_keep (m : Nat) :
    ∀ (sections : List (List Char)) (current : List Char),
      ((buildChunks m sections current).flatten).filter keepChar =
        (current ++ sections.flatten).filter keepChar := by
  intro sections
  induction sections with
  | nil =>
    intro current
    rw [buildChunks]
    split
    · simp [filter_keep_trim]
    · next h =>
      have hcur : current.filter keepChar = [] :=
        filter_keep_eq_nil_of_allWS (allWS_of_trim_eq_nil (by omega))
      simp [hcur]
  | cons s rest ih =>
    intro current
    rw [buildChunks]
    have h2 : keepChar '\n' = false := by decide
    by_cases hce : current.isEmpty = true
    · simp only [if_pos hce]
      split
    <;> first
      | (rw [List.flatten_cons, List.filter_append, ih s, filter_keep_trim]
         simp [List.filter_append])
      | (rw [ih]; simp [List.filter_append, List.filter_cons, h2])
    · simp only [if_neg hce]
      split
    <;> first
      | (rw [List.flatten_cons, List.filter_append, ih s, filter_keep_trim]
         simp [List.filter_append])
      | (rw [ih]; simp [List.filter_append, List.filter_cons, h2])

/-- The fallback ladder preserves the payload of the concatenation. -/
theorem ladderSections_filter_keep (content : List Char) :
    ((ladderSections content).flatten).filter keepChar = content.filter keepChar := by
  have hpara : ((ladder1 content).flatten).filter keepChar = content.filter keepChar := by
    rw [ladder1, filter_keep_sections]
    simpa [paraSplit] using paraSplitAuxF_filter_keep content.length content [] le_rfl
  have hl2 : ((ladder2 content).flatten).filter keepChar = content.filter keepChar := by
    rw [ladder2]
    split
    · rw [filter_keep_sections]
      simpa [splitNL] using splitNLAux_filter_keep content []
    · exact hpara
  rw [ladderSections]
  split
  · rw [filter_keep_sections]
    have := splitRunsAuxF_filter_keep (fun c => keepChar_eq_false_of_term)
      content.length content [] le_rfl
    simpa [splitOnRuns] using this
  · exact hl2

/-- The force-split pass reassembles to exactly its input. -/
theorem forceSplit_flatten {k : Nat} (hk : 1 ≤ k) (base : List (List Char)) :
    (forceSplit k base).flatten = base.flatten := by
  induction base with
  | nil => rfl
  | cons a t ih =>
    have hstep : forceSplit k (a :: t) =
        (if a.length ≤ k then [a] else sliceEvery k a) ++ forceSplit k t := by
      simp [forceSplit]
    rw [hstep, List.flatten_append, ih, List.flatten_cons]
    congr 1
    split
    · simp
    · exact sliceEvery_join hk a

/-- The assembly stage preserves the payload, given that the incoming chunk
list does. -/
theorem chunkAssemble_filter_keep (m : Nat) (hm : 1 ≤ m) (content : List Char)
    (chunks : List (List Char))
    (hJoin : (chunks.flatten).filter keepChar = content.filter keepChar) :
    ((chunkAssemble m content chunks).flatten).filter keepChar =
      content.filter keepChar := by
  rw [chunkAssemble]
  split
  · rw [forceSplit_flatten (by omega)]
    split
    · simp
    · exact hJoin
  · exact hJoin

/-- C2 counterexample: chunking `"aaaaa.bbbbb"` at budget 1 drops the
non-whitespace character `'.'` (the sentence-split fallback consumes the
terminators), so the concatenation of the chunks does not reproduce the input
up to whitespace normalization. -/
theorem chunkDocument_roundtrip_counterexample :
    (((chunkDocument ("aaaaa.bbbbb".toList) 1).flatten).filter nonWSChar ≠
        ("aaaaa.bbbbb".toList).filter nonWSChar) ∧
      ((chunkDocument ("aaaaa.bbbbb".toList) 1).flatten) = "aaaaabbbbb".toList := by
  constructor
  · decide
  · decide

/-- C2 amended: concatenating all chunks of `chunkDocument` in order
reproduces the input up to whitespace normalization and up to loss of sentence
terminator characters (`.`, `!`, `?`) at sentence-split boundaries: no other
non-whitespace character is dropped, duplicated, or reordered. -/
theorem chunkDocument_keep_roundtrip (content : List Char) (m : Nat) (hm : 1 ≤ m) :
    ((chunkDocument content m).flatten).filter keepChar = content.filter keepChar := by
  rw [chunkDocument]
  split
  · simp
  · refine chunkAssemble_filter_keep m hm content _ ?_
    rw [buildChunks_filter_keep]
    simpa using ladderSections_filter_keep content

/-- Witness for the amended C2 at a concrete input containing a terminator and
paragraph breaks. -/
theorem chunkDocument_keep_roundtrip_witness :
    1 ≤ 1 ∧
      (((chunkDocument ("ab.cd\n\nef gh".toList) 1).flatten).filter keepChar =
        ("ab.cd\n\nef gh".toList).filter keepChar) :=
  ⟨by decide, chunkDocument_keep_roundtrip ("ab.cd\n\nef gh".toList) 1 (by decide)⟩

/-- Error object surfaced by the remote completion collaborator, as inspected
by `retryWithBackoff` (openai.ts line 101): an optional HTTP status, an
optional provider error code, and the message used when the error is rendered
inline. -/
structure ApiError where
  status : Option Nat
  code : Option String
  message : String
deriving DecidableEq, Repr

/-- Errors propagated out of `retryWithBackoff`: either the caught collaborator
error rethrown as-is, or a fresh `Error` created with a fixed message
(openai.ts lines 114 and 126). -/
inductive RetryError where
  | api : ApiError → RetryError
  | wrapped : String → RetryError
deriving DecidableEq, Repr

/-- The message attached to a propagated error
(`error instanceof Error ? error.message : 'Unknown error'`,
openai.ts line 232). -/
def retryErrorMessage : RetryError → String
  | RetryError.api e => e.message
  | RetryError.wrapped s => s

/-- The loop of `retryWithBackoff` (openai.ts lines 96-124), with the
operation modelled as a function from the attempt index to its outcome and the
jitter (`Math.random() * 2000`) injected as a function of the attempt index.
`remaining` counts the loop iterations still allowed (`maxRetries - i`), so
`remaining = 1` is exactly `isLastAttempt`.  Returns the final outcome, the
number of times the operation was invoked, and the list of awaited delays in
order (delays computed but not awaited on the last attempt are not recorded,
matching the code, which only sleeps when it continues). -/
def retryLoop {α : Type} (fn : Nat → Except ApiError α) (baseDelay : ℚ)
    (jitter : Nat → ℚ) : Nat → Nat → (Except RetryError α) × Nat × List ℚ
  | 0, _ => (Except.error (RetryError.wrapped "Max retries exceeded"), 0, [])
  | Nat.succ remaining, i =>
    match fn i with
    | Except.ok a => (Except.ok a, 1, [])
    | Except.error e =>
      if e.status = some 429 then
        if remaining = 0 then (Except.error (RetryError.api e), 1, [])
        else
          let d := min (baseDelay * 2 ^ i + jitter i) 30000
          let r := retryLoop fn baseDelay jitter remaining (i + 1)
          (r.1, r.2.1 + 1, d :: r.2.2)
      else if e.status = some 400 ∧ e.code = some "context_length_exceeded" then
        (Except.error (RetryError.wrapped
          "Document too large even after chunking. Please use a shorter document."), 1, [])
      else if remaining = 0 then (Except.error (RetryError.api e), 1, [])
      else
        let r := retryLoop fn baseDelay jitter remaining (i + 1)
        (r.1, r.2.1 + 1, (baseDelay * (i + 1)) :: r.2.2)

/-- `retryWithBackoff` from openai.ts lines 91-127: run the operation, with up
to `maxRetries` loop iterations in total. -/
def retryWithBackoff {α : Type} (fn : Nat → Except ApiError α) (maxRetries : Nat)
    (baseDelay : ℚ) (jitter : Nat → ℚ) : (Except RetryError α) × Nat × List ℚ :=
  retryLoop fn baseDelay jitter maxRetries 0

/-- C3 counterexample: with `maxRetries = 3` and an operation that fails with
status 429 on every invocation, the operation is invoked 3 times in total
(2 retries after the first attempt), not the claimed `1 + maxRetries = 4`
times: the loop runs `maxRetries` iterations in total, each making one call. -/
theorem retryWithBackoff_total_calls_counterexample :
    ((retryWithBackoff
        (fun _ => (Except.error ⟨some 429, none, "rate limited"⟩ : Except ApiError Unit))
        3 2000 (fun _ => 0)).2.1 = 3) ∧
      ((retryWithBackoff
        (fun _ => (Except.error ⟨some 429, none, "rate limited"⟩ : Except ApiError Unit))
        3 2000 (fun _ => 0)).2.1 ≠ 3 + 1) := by
  constructor
  · rfl
  · decide

/-- Behaviour of the retry loop on an operation that fails rate-limited on
every invocation: all `remaining` allowed iterations are used, each making one
call; the first `remaining - 1` failures are followed by the capped
exponential delay, and the error of the last attempt is propagated. -/
theorem retryLoop_rate_limited {α : Type} (fn : Nat → Except ApiError α)
    (err : Nat → ApiError) (baseDelay : ℚ) (jitter : Nat → ℚ)
    (hfn : ∀ i, fn i = Except.error (err i)) (hst : ∀ i, (err i).status = some 429) :
    ∀ (remaining : Nat), 1 ≤ remaining → ∀ (i : Nat),
      retryLoop fn baseDelay jitter remaining i =
        (Except.error (RetryError.api (err (i + remaining - 1))), remaining,
          (List.range (remaining - 1)).map
            (fun j => min (baseDelay * 2 ^ (i + j) + jitter (i + j)) 30000)) := by
  intro remaining
  induction remaining with
  | zero => intro h; omega
  | succ r ih =>
    intro _ i
    rw [retryLoop, hfn i]
    simp only
    rw [if_pos (hst i)]
    by_cases hr : r = 0
    · subst hr
      rw [if_pos rfl]
      simp
    · rw [if_neg hr]
      have h1 : 1 ≤ r := Nat.one_le_iff_ne_zero.mpr hr
      rw [ih h1 (i + 1)]
      have hidx : i + 1 + r - 1 = i + (r + 1) - 1 := by omega
      rw [hidx, Nat.add_sub_cancel]
      simp only [Prod.mk.injEq, true_and]
      have hr2 : r = (r - 1) + 1 := by omega
      conv_rhs => rw [hr2, List.range_succ_eq_map]
      simp only [List.map_cons, List.map_map, Nat.add_zero]
      congr 1
      apply List.map_congr_left
      intro j _
      simp only [Function.comp_apply]
      have h3 : i + 1 + j = i + Nat.succ j := by omega
      rw [h3]

/-- C3 amended: for an operation failing rate-limited (429) on every
invocation, `retryWithBackoff(op, maxRetries ≥ 1, baseDelay)` invokes the
operation exactly `maxRetries` times in total — `maxRetries - 1` retries after
the first attempt, each preceded by the capped delay
`min(baseDelay·2^i + jitter_i, 30000)` — and then propagates the error of the
last attempt. -/
theorem retryWithBackoff_rate_limited_trace {α : Type} (fn : Nat → Except ApiError α)
    (err : Nat → ApiError) (maxRetries : Nat) (baseDelay : ℚ) (jitter : Nat → ℚ)
    (hfn : ∀ i, fn i = Except.error (err i)) (hst : ∀ i, (err i).status = some 429)
    (hmr : 1 ≤ maxRetries) :
    retryWithBackoff fn maxRetries baseDelay jitter =
      (Except.error (RetryError.api (err (maxRetries - 1))), maxRetries,
        (List.range (maxRetries - 1)).map
          (fun j => min (baseDelay * 2 ^ j + jitter j) 30000)) := by
  rw [retryWithBackoff, retryLoop_rate_limited fn err baseDelay jitter hfn hst maxRetries hmr 0]
  simp

/-- Witness for the amended C3 with `maxRetries = 2` and a concrete always-429
operation. -/
theorem retryWithBackoff_rate_limited_trace_witness :
    1 ≤ 2 ∧
      retryWithBackoff
          (fun _ => (Except.error ⟨some 429, none, "rate limited"⟩ : Except ApiError Unit))
          2 2000 (fun _ => 0) =
        (Except.error (RetryError.api ⟨some 429, none, "rate limited"⟩), 2,
          (List.range 1).map (fun j => min ((2000 : ℚ) * 2 ^ j + 0) 30000)) :=
  ⟨by decide,
    retryWithBackoff_rate_limited_trace
      (fun _ => (Except.error ⟨some 429, none, "rate limited"⟩ : Except ApiError Unit))
      (fun _ => ⟨some 429, none, "rate limited"⟩) 2 2000 (fun _ => 0)
      (fun _ => rfl) (fun _ => rfl) (by decide)⟩

/-- The per-chunk loop of `markChunkedDocument` (openai.ts lines 203-234): for
each chunk, build the part-specific prompts, run the completion through
`retryWithBackoff` with the default policy (3, 2000), and render either the
completion output or an inline error entry under the section header.  Returns
the section entries and the total number of completion invocations.  The fixed
8-second inter-chunk sleep has no effect on the returned value and is not
modelled. -/
def markChunksLoop (complete : String → String → Nat → Except ApiError String)
    (jitter : Nat → Nat → ℚ) (systemPrompt basePrompt : String) (total : Nat) :
    Nat → List (List Char) → List String × Nat
  | _, [] => ([], 0)
  | i, chunk :: rest =>
    let header := "=== SECTION " ++ toString (i + 1) ++ " of " ++ toString total ++ " ===\n"
    let sys := systemPrompt ++ "\n\nIMPORTANT: This is part " ++ toString (i + 1) ++ " of " ++
      toString total ++ " of the document. Provide detailed feedback for this section."
    let usr := basePrompt ++ "[PART " ++ toString (i + 1) ++ " of " ++ toString total ++
      "]\n\n" ++ String.mk chunk
    let r := retryWithBackoff (complete sys usr) 3 2000 (jitter i)
    let entry :=
      match r.1 with
      | Except.ok text => header ++ text
      | Except.error e => header ++ "Error processing this section: " ++ retryErrorMessage e
    let tailRes := markChunksLoop complete jitter systemPrompt basePrompt total (i + 1) rest
    (entry :: tailRes.1, r.2.1 + tailRes.2)

/-- `markChunkedDocument` from openai.ts lines 187-241: chunk the document,
refuse with a descriptive error when more than 10 chunks would be needed, and
otherwise mark each chunk through the retry-wrapped completion collaborator and
combine the results.  The second component counts completion invocations. -/
def markChunkedDocument (complete : String → String → Nat → Except ApiError String)
    (jitter : Nat → Nat → ℚ) (systemPrompt basePrompt : String)
    (documentContent : List Char) (maxContentTokens : Nat) :
    (Except String String) × Nat :=
  if 10 < (chunkDocument documentContent maxContentTokens).length then
    (Except.error ("Document is too large and would require " ++
      toString (chunkDocument documentContent maxContentTokens).length ++
      " chunks. Please use a shorter document or split it manually. Maximum recommended chunks: 10."),
      0)
  else
    ((Except.ok (String.intercalate "\n\n"
        (markChunksLoop complete jitter systemPrompt basePrompt
          (chunkDocument documentContent maxContentTokens).length 0
          (chunkDocument documentContent maxContentTokens)).1 ++
      "\n\n=== PROCESSING COMPLETE ===\nDocument was processed in " ++
      toString (chunkDocument documentContent maxContentTokens).length ++
      " sections due to size. Each section has been marked individually above.")),
      (markChunksLoop complete jitter systemPrompt basePrompt
        (chunkDocument documentContent maxContentTokens).length 0
        (chunkDocument documentContent maxContentTokens)).2)

/-- C6: whenever chunking the document under the computed budget yields more
than 10 chunks, `markChunkedDocument` returns the descriptive size-limit error
and issues zero remote completion calls — the document is never silently
truncated or partially submitted. -/
theorem markChunkedDocument_rejects_oversized
    (complete : String → String → Nat → Except ApiError String)
    (jitter : Nat → Nat → ℚ) (systemPrompt basePrompt : String)
    (documentContent : List Char) (maxContentTokens : Nat)
    (h : 10 < (chunkDocument documentContent maxContentTokens).length) :
    markChunkedDocument complete jitter systemPrompt basePrompt documentContent
        maxContentTokens =
      (Except.error ("Document is too large and would require " ++
        toString (chunkDocument documentContent maxContentTokens).length ++
        " chunks. Please use a shorter document or split it manually. Maximum recommended chunks: 10."),
        0) := by
  rw [markChunkedDocument, if_pos h]

/-- Witness for C6: a 45-character unstructured document at budget 1 needs 12
chunks and is rejected with zero completion calls. -/
theorem markChunkedDocument_rejects_oversized_witness :
    10 < (chunkDocument (List.replicate 45 'x') 1).length ∧
      markChunkedDocument (fun _ _ _ => Except.error ⟨some 500, none, "boom"⟩)
          (fun _ _ => 0) "" "" (List.replicate 45 'x') 1 =
        (Except.error ("Document is too large and would require " ++
          toString (chunkDocument (List.replicate 45 'x') 1).length ++
          " chunks. Please use a shorter document or split it manually. Maximum recommended chunks: 10."),
          0) :=
  ⟨by decide,
    markChunkedDocument_rejects_oversized (fun _ _ _ => Except.error ⟨some 500, none, "boom"⟩)
      (fun _ _ => 0) "" "" (List.replicate 45 'x') 1 (by decide)⟩

/-- `DocumentSizeInfo` from document-utils.ts lines 5-13 (risk levels and
categories kept as their string literals). -/
structure DocumentSizeInfo where
  category : String
  description : String
  willChunk : Bool
  estimatedTokens : Nat
  estimatedChunks : Nat
  processingTime : String
  riskLevel : String
deriving DecidableEq, Repr

/-- `estimateChunks` from document-utils.ts lines 21-24 (the call site always
passes the default 6000): `Math.ceil(tokens / maxTokensPerChunk)` when above
one chunk. -/
def estimateChunks (tokens maxTokensPerChunk : Nat) : Nat :=
  if tokens ≤ maxTokensPerChunk then 1
  else (tokens + maxTokensPerChunk - 1) / maxTokensPerChunk

/-- `getDocumentSizeCategory` from document-utils.ts lines 36-91. -/
def getDocumentSizeCategory (content : List Char) : DocumentSizeInfo :=
  if estimateTokens content ≤ 3000 then
    ⟨"small", "Small document", false, estimateTokens content, 1, "30-60 seconds", "low"⟩
  else if estimateTokens content ≤ 6000 then
    ⟨"medium", "Medium document", false, estimateTokens content, 1, "1-2 minutes", "low"⟩
  else if estimateTokens content ≤ 12000 then
    ⟨"large", "Large document", true, estimateTokens content,
      estimateChunks (estimateTokens content) 6000,
      toString (estimateChunks (estimateTokens content) 6000 * 2) ++ "-" ++
        toString (estimateChunks (estimateTokens content) 6000 * 3) ++ " minutes", "medium"⟩
  else if estimateTokens content ≤ 30000 then
    ⟨"very-large", "Very large document", true, estimateTokens content,
      estimateChunks (estimateTokens content) 6000,
      toString (estimateChunks (estimateTokens content) 6000 * 2) ++ "-" ++
        toString (estimateChunks (estimateTokens content) 6000 * 4) ++ " minutes", "high"⟩
  else
    ⟨"too-large", "Document too large", false, estimateTokens content,
      estimateChunks (estimateTokens content) 6000, "Will fail", "critical"⟩

/-- `BatchRecommendation` from batch-utils.ts lines 4-10. -/
structure BatchRecommendation where
  recommendedBatchSize : Nat
  totalBatches : Nat
  riskLevel : String
  reason : String
  estimatedTimePerBatch : String
deriving DecidableEq, Repr

/-- The mutable aggregates of the analysis loop in `getBatchRecommendation`
(batch-utils.ts lines 24-28). -/
structure BatchCounts where
  veryLargeCount : Nat
  largeCount : Nat
  tooLargeCount : Nat
  totalChunks : Nat
  maxChunksPerDoc : Nat
deriving DecidableEq, Repr

/-- One iteration of the analysis loop (batch-utils.ts lines 30-46). -/
def batchStep (acc : BatchCounts) (file : List Char) : BatchCounts :=
  if (getDocumentSizeCategory file).category = "too-large" then
    ⟨acc.veryLargeCount, acc.largeCount, acc.tooLargeCount + 1, acc.totalChunks,
      acc.maxChunksPerDoc⟩
  else if (getDocumentSizeCategory file).category = "very-large" then
    ⟨acc.veryLargeCount + 1, acc.largeCount, acc.tooLargeCount,
      acc.totalChunks + (getDocumentSizeCategory file).estimatedChunks,
      max acc.maxChunksPerDoc (getDocumentSizeCategory file).estimatedChunks⟩
  else if (getDocumentSizeCategory file).category = "large" then
    ⟨acc.veryLargeCount, acc.largeCount + 1, acc.tooLargeCount,
      acc.totalChunks + (getDocumentSizeCategory file).estimatedChunks,
      max acc.maxChunksPerDoc (getDocumentSizeCategory file).estimatedChunks⟩
  else
    ⟨acc.veryLargeCount, acc.largeCount, acc.tooLargeCount, acc.totalChunks + 1,
      acc.maxChunksPerDoc⟩

/-- The aggregates over a whole document list. -/
def batchCounts (files : List (List Char)) : BatchCounts :=
  files.foldl batchStep ⟨0, 0, 0, 0, 0⟩

/-- The batch-size / risk / reason decision chain of `getBatchRecommendation`
(batch-utils.ts lines 64-106). -/
def batchDecision (n : Nat) (c : BatchCounts) : Nat × String × String :=
  if 10 < c.maxChunksPerDoc then
    (1, "high", "Some documents are extremely large (" ++ toString c.maxChunksPerDoc ++
      " chunks). Process one at a time to avoid resource exhaustion.")
  else if 0 < c.veryLargeCount then
    if 3 ≤ c.veryLargeCount then
      (2, "high", toString c.veryLargeCount ++
        " very large documents detected. Process 2 at a time to prevent rate limiting.")
    else
      (3, "medium", toString c.veryLargeCount ++
        " very large document(s) detected. Process 3 at a time for optimal performance.")
  else if 0 < c.largeCount then
    if 30 < c.totalChunks then
      (3, "medium", toString c.largeCount ++
        " large document(s) will be chunked. Process 3 at a time to manage API load.")
    else
      (5, "low", toString c.largeCount ++
        " large document(s) detected. Process 5 at a time for good performance.")
  else if 20 < n then
    (10, "medium", "Large number of files (" ++ toString n ++
      "). Process 10 at a time to avoid overwhelming the system.")
  else if 10 < n then
    (8, "low", "Moderate batch size (" ++ toString n ++
      " files). Process 8 at a time for optimal speed.")
  else
    (n, "low", "Small batch size (" ++ toString n ++ " files). Can process all at once.")

/-- The per-file time factor (batch-utils.ts lines 111-116). -/
def batchAvgTime (c : BatchCounts) : Nat :=
  if 0 < c.veryLargeCount then 8 else if 0 < c.largeCount then 4 else 1

/-- `getBatchRecommendation` from batch-utils.ts lines 12-127.  `totalBatches`
is `Math.ceil(n / batchSize)` with `batchSize ≥ 1` on this path, and the time
estimate `Math.ceil(avg * batchSize)` is a product of naturals, so both ceils
are exact. -/
def getBatchRecommendation (files : List (List Char)) : BatchRecommendation :=
  if files.length = 0 then
    ⟨0, 0, "low", "No files to process", "0 minutes"⟩
  else if 0 < (batchCounts files).tooLargeCount then
    ⟨0, 0, "high", toString (batchCounts files).tooLargeCount ++
      " document(s) exceed maximum size (30,000 tokens). Please split or shorten these documents.",
      "Cannot process"⟩
  else
    ⟨(batchDecision files.length (batchCounts files)).1,
      (files.length + (batchDecision files.length (batchCounts files)).1 - 1) /
        (batchDecision files.length (batchCounts files)).1,
      (batchDecision files.length (batchCounts files)).2.1,
      (batchDecision files.length (batchCounts files)).2.2,
      toString (batchAvgTime (batchCounts files) *
        (batchDecision files.length (batchCounts files)).1) ++ " minutes"⟩

/-- The chunk contribution of one document to the loop's `totalChunks`
aggregate: nothing for too-large documents, the estimated chunk count for
large and very-large documents, and 1 for small and medium documents. -/
def docChunkContribution (f : List Char) : Nat :=
  if (getDocumentSizeCategory f).category = "too-large" then 0
  else if (getDocumentSizeCategory f).category = "very-large" ∨
      (getDocumentSizeCategory f).category = "large" then
    (getDocumentSizeCategory f).estimatedChunks
  else 1

/-- The `totalChunks` aggregate, characterised as a sum over the documents. -/
def codeTotalChunks (files : List (List Char)) : Nat :=
  (files.map docChunkContribution).sum

/-- The claim's reading of `totalChunks`: estimated chunk counts summed across
non-small documents only. -/
def claimTotalChunks (files : List (List Char)) : Nat :=
  (files.map fun f =>
    if (getDocumentSizeCategory f).category = "small" then 0
    else (getDocumentSizeCategory f).estimatedChunks).sum

/-- The chunk contribution of one document to `maxChunksPerDoc`. -/
def docMaxContribution (f : List Char) : Nat :=
  if (getDocumentSizeCategory f).category = "very-large" ∨
      (getDocumentSizeCategory f).category = "large" then
    (getDocumentSizeCategory f).estimatedChunks
  else 0

/-- The `maxChunksPerDoc` aggregate, characterised as a maximum over the
documents. -/
def maxChunksAcross (files : List (List Char)) : Nat :=
  (files.map docMaxContribution).foldr max 0

/-- The decision table stated by the claim, parameterised by the reading of
`totalChunks`: rows evaluated in order, first match wins. -/
def batchTableWith (totalChunks : Nat) (files : List (List Char)) : Nat × String :=
  if 0 < files.countP (fun f => (getDocumentSizeCategory f).category = "too-large") then
    (0, "high")
  else if 10 < maxChunksAcross files then (1, "high")
  else if 3 ≤ files.countP (fun f => (getDocumentSizeCategory f).category = "very-large") then
    (2, "high")
  else if 0 < files.countP (fun f => (getDocumentSizeCategory f).category = "very-large") then
    (3, "medium")
  else if 0 < files.countP (fun f => (getDocumentSizeCategory f).category = "large") ∧
      30 < totalChunks then
    (3, "medium")
  else if 0 < files.countP (fun f => (getDocumentSizeCategory f).category = "large") then
    (5, "low")
  else if 20 < files.length then (10, "medium")
  else if 10 < files.length then (8, "low")
  else (files.length, "low")

/-- The decision table exactly as the claim words it (with its `totalChunks`
definition). -/
def batchTableClaim (files : List (List Char)) : Nat × String :=
  batchTableWith (claimTotalChunks files) files

/-- The decision table with the corrected `totalChunks` (small and medium
documents contribute 1 each). -/
def batchTableAmended (files : List (List Char)) : Nat × String :=
  batchTableWith (codeTotalChunks files) files

/-- The analysis loop computes the per-category counts, the per-document chunk
sum, and the per-document chunk maximum. -/
theorem foldl_batchStep (files : List (List Char)) : ∀ (acc : BatchCounts),
    files.foldl batchStep acc =
      ⟨acc.veryLargeCount +
          files.countP (fun f => (getDocumentSizeCategory f).category = "very-large"),
        acc.largeCount +
          files.countP (fun f => (getDocumentSizeCategory f).category = "large"),
        acc.tooLargeCount +
          files.countP (fun f => (getDocumentSizeCategory f).category = "too-large"),
        acc.totalChunks + codeTotalChunks files,
        max acc.maxChunksPerDoc (maxChunksAcross files)⟩ := by
  induction files with
  | nil =>
    intro acc
    simp [codeTotalChunks, maxChunksAcross]
  | cons f rest ih =>
    intro acc
    rw [List.foldl_cons, ih (batchStep acc f)]
    have hsum : codeTotalChunks (f :: rest) = docChunkContribution f + codeTotalChunks rest := by
      simp [codeTotalChunks]
    have hmax : maxChunksAcross (f :: rest) = max (docMaxContribution f) (maxChunksAcross rest) := by
      simp [maxChunksAcross]
    rw [batchStep, docChunkContribution, docMaxContribution] at *
    by_cases h1 : (getDocumentSizeCategory f).category = "too-large"
    · rw [if_pos h1] at *
      simp only [BatchCounts.mk.injEq, List.countP_cons, h1, hsum, hmax]
      have hvl : ¬(getDocumentSizeCategory f).category = "very-large" := by
        rw [h1]; decide
      have hl : ¬(getDocumentSizeCategory f).category = "large" := by
        rw [h1]; decide
      simp [hvl, hl, hsum, hmax]
      omega
    · rw [if_neg h1] at *
      by_cases h2 : (getDocumentSizeCategory f).category = "very-large"
      · rw [if_pos h2] at *
        have hor : ((getDocumentSizeCategory f).category = "very-large" ∨
            (getDocumentSizeCategory f).category = "large") := Or.inl h2
        have hl : ¬(getDocumentSizeCategory f).category = "large" := by
          rw [h2]; decide
        simp only [BatchCounts.mk.injEq, List.countP_cons, hsum, hmax, if_pos hor,
          if_neg h1]
        simp [h2, h1, hl]
        refine ⟨by omega, by omega, ?_⟩
        rw [Nat.max_assoc]
      · rw [if_neg h2] at *
        by_cases h3 : (getDocumentSizeCategory f).category = "large"
        · rw [if_pos h3] at *
          have hor : ((getDocumentSizeCategory f).category = "very-large" ∨
              (getDocumentSizeCategory f).category = "large") := Or.inr h3
          simp only [BatchCounts.mk.injEq, List.countP_cons, hsum, hmax, if_pos hor,
            if_neg h1]
          simp [h2, h1, h3]
          refine ⟨by omega, by omega, ?_⟩
          rw [Nat.max_assoc]
        · have hor : ¬((getDocumentSizeCategory f).category = "very-large" ∨
              (getDocumentSizeCategory f).category = "large") := by
            intro h
            rcases h with h | h
            · exact h2 h
            · exact h3 h
          simp only [BatchCounts.mk.injEq, List.countP_cons, hsum, hmax, if_neg hor,
            if_neg h1]
          simp [h1, h2, h3]
          omega

/-- The aggregates over a list, with the zero initial state. -/
theorem batchCounts_eq (files : List (List Char)) :
    batchCounts files =
      ⟨files.countP (fun f => (getDocumentSizeCategory f).category = "very-large"),
        files.countP (fun f => (getDocumentSizeCategory f).category = "large"),
        files.countP (fun f => (getDocumentSizeCategory f).category = "too-large"),
        codeTotalChunks files,
        maxChunksAcross files⟩ := by
  rw [batchCounts, foldl_batchStep]
  simp

/-- C5 amended (main part): for every document list, the recommended batch
size and risk level returned by `getBatchRecommendation` are exactly the first
matching row of the claimed decision table, with `totalChunks` corrected to
count 1 for each small or medium document as well. -/
theorem getBatchRecommendation_matches_table (files : List (List Char)) :
    ((getBatchRecommendation files).recommendedBatchSize,
        (getBatchRecommendation files).riskLevel) = batchTableAmended files := by
  rw [getBatchRecommendation, batchTableAmended, batchTableWith, batchCounts_eq]
  by_cases h0 : files.length = 0
  · rw [if_pos h0]
    have hnil : files = [] := List.length_eq_zero.mp h0
    subst hnil
    simp [codeTotalChunks, maxChunksAcross]
  · rw [if_neg h0, batchDecision]
    simp only []
    split_ifs <;> first | rfl | omega

/-- The two claim-specific instances: the empty list yields batch size 0 at
risk low, and 25 small documents trigger the `n > 20` row (batch size 10,
risk medium). -/
theorem getBatchRecommendation_instances :
    getBatchRecommendation [] = ⟨0, 0, "low", "No files to process", "0 minutes"⟩ ∧
      (getBatchRecommendation (List.replicate 25 ([] : List Char))).recommendedBatchSize = 10 ∧
      (getBatchRecommendation (List.replicate 25 ([] : List Char))).riskLevel = "medium" := by
  refine ⟨rfl, ?_, ?_⟩ <;> decide

/-- A document of 24004 characters: 6001 estimated tokens, category `large`,
2 estimated chunks. -/
def largeDoc : List Char := List.replicate 24004 'a'

/-- Thirty documents: one large document (2 chunks) and 29 empty (small)
documents.  The loop counts `totalChunks = 2 + 29 = 31 > 30`, while summing
chunk counts across non-small documents only gives 2. -/
def docs30 : List (List Char) := largeDoc :: List.replicate 29 []

/-- Size classification of the large document. -/
theorem sizeCat_largeDoc :
    getDocumentSizeCategory largeDoc =
      ⟨"large", "Large document", true, 6001, 2, "4-6 minutes", "medium"⟩ := by
  have htok : estimateTokens largeDoc = 6001 := by
    rw [estimateTokens, largeDoc, List.length_replicate]
  rw [getDocumentSizeCategory, htok]
  rfl

/-- The loop aggregates on the thirty documents. -/
theorem batchCounts_docs30 : batchCounts docs30 = ⟨0, 1, 0, 31, 2⟩ := by
  have h1 : batchStep ⟨0, 0, 0, 0, 0⟩ largeDoc = ⟨0, 1, 0, 2, 2⟩ := by
    rw [batchStep, sizeCat_largeDoc]
    rfl
  rw [batchCounts, docs30, List.foldl_cons, h1]
  decide

/-- Length of the thirty-document list. -/
theorem docs30_length : docs30.length = 30 := by
  rw [docs30, List.length_cons, List.length_replicate]

/-- What the code returns on the thirty documents. -/
theorem getBatchRecommendation_docs30 :
    getBatchRecommendation docs30 =
      ⟨3, 10, "medium",
        "1 large document(s) will be chunked. Process 3 at a time to manage API load.",
        "12 minutes"⟩ := by
  rw [getBatchRecommendation, batchCounts_docs30, docs30_length]
  decide

/-- What the claim's table (with its `totalChunks` reading) predicts on the
thirty documents. -/
theorem batchTableClaim_docs30 : batchTableClaim docs30 = (5, "low") := by
  have hclaim : claimTotalChunks docs30 = 2 := by
    rw [claimTotalChunks, docs30]
    simp only [List.map_cons, sizeCat_largeDoc]
    decide
  have hmax : maxChunksAcross docs30 = 2 := by
    rw [maxChunksAcross, docs30]
    simp only [List.map_cons, docMaxContribution, sizeCat_largeDoc]
    decide
  have hvl : docs30.countP (fun f => (getDocumentSizeCategory f).category = "very-large") = 0 := by
    rw [docs30, List.countP_cons_of_neg]
    · decide
    · simp only [sizeCat_largeDoc]
      decide
  have htl : docs30.countP (fun f => (getDocumentSizeCategory f).category = "too-large") = 0 := by
    rw [docs30, List.countP_cons_of_neg]
    · decide
    · simp only [sizeCat_largeDoc]
      decide
  have hl : docs30.countP (fun f => (getDocumentSizeCategory f).category = "large") = 1 := by
    rw [docs30, List.countP_cons_of_pos]
    · decide
    · simp only [sizeCat_largeDoc]
      decide
  rw [batchTableClaim, batchTableWith, hclaim, hmax, hvl, htl, hl, docs30_length]
  decide

/-- C5 counterexample: on one large two-chunk document plus 29 small
documents, the code recommends (3, medium) — the loop counts small documents
into `totalChunks`, giving 31 > 30 — while the claimed table with
`totalChunks` summed across non-small documents only (= 2) predicts
(5, low). -/
theorem getBatchRecommendation_counterexample :
    ((getBatchRecommendation docs30).recommendedBatchSize,
        (getBatchRecommendation docs30).riskLevel) = (3, "medium") ∧
      batchTableClaim docs30 = (5, "low") ∧
      ((getBatchRecommendation docs30).recommendedBatchSize,
        (getBatchRecommendation docs30).riskLevel) ≠ batchTableClaim docs30 := by
  refine ⟨?_, batchTableClaim_docs30, ?_⟩
  · rw [getBatchRecommendation_docs30]
  · rw [getBatchRecommendation_docs30, batchTableClaim_docs30]
    decide

/-- The fixed topic/keyword table `TOPIC_KEYWORDS` of the improved local
marking engine, in insertion order. -/
def TOPIC_KEYWORDS : List (String × List String) := [
  ("Cyber Security", ["cyber", "security", "threat", "malware", "virus", "firewall",
    "encryption", "password", "authentication", "breach"]),
  ("Safety Hazards", ["safety", "hazard", "risk", "danger", "accident", "injury",
    "precaution", "protection", "emergency"]),
  ("Storage Devices", ["storage", "hard drive", "ssd", "hdd", "usb", "memory", "disk",
    "flash", "optical", "dvd", "cd"]),
  ("Computer Components", ["cpu", "processor", "motherboard", "ram", "memory", "graphics",
    "power supply", "component", "hardware"]),
  ("Basic Terminologies", ["definition", "term", "meaning", "concept", "terminology",
    "explain", "describe"]),
  ("Memory Types", ["ram", "rom", "memory", "volatile", "non-volatile", "cache", "buffer",
    "primary", "secondary"]),
  ("BIOS", ["bios", "firmware", "boot", "startup", "system", "update", "configuration",
    "setup"]),
  ("Hard Disk Drive", ["hard disk", "hdd", "drive", "storage", "disk", "platter", "sector",
    "track"]),
  ("Hardware Performance", ["performance", "speed", "efficiency", "benchmark",
    "optimization", "factor", "impact"]),
  ("AC-DC Converters", ["ac", "dc", "converter", "power", "supply", "voltage", "current",
    "electrical"]),
  ("Internet Collaboration", ["internet", "collaboration", "secure", "online", "network",
    "communication", "sharing"]),
  ("Server Networks", ["server", "network", "functionality", "client", "service",
    "protocol", "connection"]),
  ("Input Output Devices", ["input", "output", "device", "keyboard", "mouse", "monitor",
    "printer", "scanner"]),
  ("Printer Management", ["printer", "install", "manage", "driver", "print", "queue",
    "configuration"]),
  ("Mobile Devices", ["mobile", "smartphone", "tablet", "device", "portable", "wireless",
    "cellular"]),
  ("Preventative Maintenance", ["maintenance", "preventative", "care", "cleaning",
    "service", "upkeep", "regular"]),
  ("Troubleshooting", ["troubleshoot", "problem", "issue", "fix", "repair", "diagnose",
    "solve", "error"]),
  ("Operating Systems", ["operating system", "os", "windows", "linux", "mac", "system",
    "platform"]),
  ("File Management", ["file", "folder", "directory", "manage", "organize", "save",
    "delete", "copy"]),
  ("Software Utilities", ["software", "utility", "tool", "program", "application",
    "optimization", "system"]),
  ("System Restore", ["restore", "backup", "recovery", "point", "system", "rollback",
    "previous"]),
  ("Recovery Processes", ["recovery", "restore", "backup", "data", "system", "process",
    "procedure"])]

/-- JS `toLowerCase` on the ASCII range (all table keywords are lowercase
ASCII). -/
def lowerStr (cs : List Char) : List Char :=
  cs.map Char.toLower

/-- Whether `needle` is a prefix of `hay`. -/
def isPrefixList : List Char → List Char → Bool
  | [], _ => true
  | _ :: _, [] => false
  | a :: as, b :: bs => a == b && isPrefixList as bs

/-- Whether `needle` occurs contiguously inside `hay` (the empty needle always
does, as in JS `includes`). -/
def subListSearch (needle : List Char) : List Char → Bool
  | [] => needle.isEmpty
  | c :: rest => isPrefixList needle (c :: rest) || subListSearch needle rest

/-- JS `haystack.includes(needle.toLowerCase())` where the haystack is already
lowercased: substring containment. -/
def containsSub (hay : List Char) (needle : String) : Bool :=
  subListSearch (needle.toList.map Char.toLower) hay

/-- JS `content.split(/\s+/).length` — the word count used throughout the
engine (leading or trailing whitespace contributes an empty piece, exactly as
in JS). -/
def wordCount (content : List Char) : Nat :=
  (splitOnRuns isWS content).length

/-- JS `TOPIC_KEYWORDS[topic] || []`. -/
def topicKeywords (topic : String) : List String :=
  (TOPIC_KEYWORDS.lookup topic).getD []

/-- Number of topic keywords present in the (lowercased) content. -/
def keywordMatches (content : List Char) (topic : String) : Nat :=
  (topicKeywords topic).countP (fun k => containsSub (lowerStr content) k)

/-- `keywordCoverage = keywords.length > 0 ? keywordMatches / keywords.length : 0`. -/
def keywordCoverage (content : List Char) (topic : String) : ℚ :=
  if 0 < (topicKeywords topic).length then
    (keywordMatches content topic : ℚ) / ((topicKeywords topic).length : ℚ)
  else 0

/-- The explanatory connective list of `analyzeAnswerQuality`. -/
def explanationWords : List String :=
  ["because", "therefore", "since", "due to", "as a result", "explain", "reason",
    "why", "how"]

/-- The exemplifying phrase list of `analyzeAnswerQuality`. -/
def exampleWords : List String :=
  ["example", "such as", "for instance", "like", "including", "e.g.", "i.e."]

/-- Whether the content contains an explanatory connective. -/
def hasExplanation (content : List Char) : Bool :=
  explanationWords.any (fun w => containsSub (lowerStr content) w)

/-- Whether the content contains an exemplifying phrase. -/
def hasExamples (content : List Char) : Bool :=
  exampleWords.any (fun w => containsSub (lowerStr content) w)

/-- The additive part of the score: base 0.85, keyword coverage boost, length
bonuses, explanation and example boosts, and the reasonable-attempt bonus, in
the order the code adds them. -/
def rawScore (content : List Char) (topic : String) : ℚ :=
  0.85 + keywordCoverage content topic * 0.30 +
    (if 40 ≤ wordCount content then 0.06 else 0) +
    (if 80 ≤ wordCount content then 0.08 else 0) +
    (if 120 ≤ wordCount content then 0.04 else 0) +
    (if hasExplanation content then 0.09 else 0) +
    (if hasExamples content then 0.06 else 0) +
    (if 15 ≤ wordCount content then 0.04 else 0)

/-- The short-answer multiplicative penalties (`score *= 0.65` below 10 words,
`score *= 0.95` below 20). -/
def penalizedScore (content : List Char) (topic : String) : ℚ :=
  if wordCount content < 10 then rawScore content topic * 0.65
  else if wordCount content < 20 then rawScore content topic * 0.95
  else rawScore content topic

/-- The irrelevant-answer penalty (`score *= 0.75` when no keyword matched and
the topic vocabulary is nonempty). -/
def zeroCoveragePenalized (content : List Char) (topic : String) : ℚ :=
  if keywordCoverage content topic = 0 ∧ 0 < (topicKeywords topic).length then
    penalizedScore content topic * 0.75
  else penalizedScore content topic

/-- The final score: capped at 0.95. -/
def finalScore (content : List Char) (topic : String) : ℚ :=
  min (zeroCoveragePenalized content topic) 0.95

/-- The label/reasoning thresholds of `analyzeAnswerQuality`. -/
def qualityLabel (score : ℚ) : String × String :=
  if 0.85 ≤ score then
    ("excellent", "Comprehensive answer with good keyword coverage and detailed explanation")
  else if 0.75 ≤ score then ("good", "Well-structured answer addressing key concepts")
  else if 0.60 ≤ score then ("satisfactory", "Adequate answer covering basic requirements")
  else if 0.40 ≤ score then ("poor", "Incomplete answer missing key concepts")
  else ("missing", "Insufficient or no answer provided")

/-- Result record of `analyzeAnswerQuality`. -/
structure QualityResult where
  quality : String
  score : ℚ
  reasoning : String
deriving DecidableEq, Repr

/-- `analyzeAnswerQuality` from the improved marking engine: missing for empty
or near-empty (trimmed length below 10) answers, otherwise the scored and
labelled result. -/
def analyzeAnswerQuality (content : List Char) (topic : String) : QualityResult :=
  if content.isEmpty ∨ (trim content).length < 10 then
    ⟨"missing", 0, "No answer provided or answer too brief"⟩
  else
    ⟨(qualityLabel (finalScore content topic)).1, finalScore content topic,
      (qualityLabel (finalScore content topic)).2⟩

/-- The scoring formula exactly as the claim words it: base 0.85, plus
coverage × 0.30, plus the additive word-count bonuses (including the ≥ 15
attempt bonus), plus the connective and example boosts, then multiplied by
0.65 below 10 words, by 0.95 for 10–19 words, and by 0.75 for zero coverage
with a nonempty vocabulary, finally clamped to at most 0.95. -/
def claimFinalScore (content : List Char) (topic : String) : ℚ :=
  min ((0.85 + keywordCoverage content topic * 0.30 +
        (if 40 ≤ wordCount content then 0.06 else 0) +
        (if 80 ≤ wordCount content then 0.08 else 0) +
        (if 120 ≤ wordCount content then 0.04 else 0) +
        (if 15 ≤ wordCount content then 0.04 else 0) +
        (if hasExplanation content then 0.09 else 0) +
        (if hasExamples content then 0.06 else 0)) *
      (if wordCount content < 10 then 0.65
        else if 10 ≤ wordCount content ∧ wordCount content ≤ 19 then 0.95 else 1) *
      (if keywordCoverage content topic = 0 ∧ 0 < (topicKeywords topic).length then 0.75
        else 1))
    0.95

/-- `analyzeAnswerQuality` exactly as the claim words it: score 0 with quality
missing when the trimmed text is shorter than 10 characters, otherwise the
claimed formula with the label given by the fixed thresholds. -/
def analyzeAnswerQualityClaim (content : List Char) (topic : String) : QualityResult :=
  if (trim content).length < 10 then
    ⟨"missing", 0, "No answer provided or answer too brief"⟩
  else
    ⟨(qualityLabel (claimFinalScore content topic)).1, claimFinalScore content topic,
      (qualityLabel (claimFinalScore content topic)).2⟩

/-- C4: the quality scorer computes exactly the formula stated by the claim —
on every input the embedded code and the claimed formula give the same score,
label and reasoning. -/
theorem analyzeAnswerQuality_matches_claim (content : List Char) (topic : String) :
    analyzeAnswerQuality content topic = analyzeAnswerQualityClaim content topic := by
  rw [analyzeAnswerQuality, analyzeAnswerQualityClaim]
  by_cases h0 : (trim content).length < 10
  · rw [if_pos h0, if_pos (Or.inr h0)]
  · have hne : ¬(content.isEmpty = true ∨ (trim content).length < 10) := by
      intro h
      rcases h with h | h
      · apply h0
        have hnil : content = [] := by
          cases content with
          | nil => rfl
          | cons a l => simp at h
        subst hnil
        simp [trim]
      · exact h0 h
    rw [if_neg hne, if_neg h0]
    have hscore : finalScore content topic = claimFinalScore content topic := by
      have hadd : 0.85 + keywordCoverage content topic * 0.30 +
          (if 40 ≤ wordCount content then (0.06 : ℚ) else 0) +
          (if 80 ≤ wordCount content then 0.08 else 0) +
          (if 120 ≤ wordCount content then 0.04 else 0) +
          (if 15 ≤ wordCount content then 0.04 else 0) +
          (if hasExplanation content then 0.09 else 0) +
          (if hasExamples content then 0.06 else 0) = rawScore content topic := by
        rw [rawScore]
        ring
      have hf : zeroCoveragePenalized content topic =
          rawScore content topic *
            (if wordCount content < 10 then 0.65
              else if 10 ≤ wordCount content ∧ wordCount content ≤ 19 then 0.95 else 1) *
            (if keywordCoverage content topic = 0 ∧ 0 < (topicKeywords topic).length then
              (0.75 : ℚ) else 1) := by
        rw [zeroCoveragePenalized, penalizedScore]
        by_cases h1 : wordCount content < 10
        · rw [if_pos h1, if_pos h1]
          split_ifs <;> ring
        · rw [if_neg h1, if_neg h1]
          by_cases h2 : wordCount content < 20
          · rw [if_pos h2,
              if_pos (show 10 ≤ wordCount content ∧ wordCount content ≤ 19 by omega)]
            split_ifs <;> ring
          · rw [if_neg h2,
              if_neg (show ¬(10 ≤ wordCount content ∧ wordCount content ≤ 19) by omega)]
            split_ifs <;> ring
      rw [finalScore, claimFinalScore, hadd, hf]
    rw [hscore]

/-- Length of the leading `\s*` run at this position. -/
def wsCount (cs : List Char) : Nat :=
  (cs.takeWhile isWS).length

/-- The leading `\d+` run. -/
def digitsRun (cs : List Char) : List Char :=
  cs.takeWhile Char.isDigit

/-- Candidate matches of `\d+(?:\.\d+)?` at this position, as (consumed
length, captured text), greedy alternative first.  Shortening the digit runs
themselves can never help, because every continuation the patterns use
(`[:\.\s]`, `\s*[.)]`) rejects a digit, so only the with/without-decimal
alternatives matter for backtracking. -/
def numMatches (cs : List Char) : List (Nat × List Char) :=
  if (digitsRun cs).isEmpty then []
  else
    match cs.drop (digitsRun cs).length with
    | '.' :: rest2 =>
      if (digitsRun rest2).isEmpty then [((digitsRun cs).length, digitsRun cs)]
      else
        [((digitsRun cs).length + 1 + (digitsRun rest2).length,
            digitsRun cs ++ '.' :: digitsRun rest2),
          ((digitsRun cs).length, digitsRun cs)]
    | _ => [((digitsRun cs).length, digitsRun cs)]

/-- Case-insensitive literal word at the head of `cs` (the word is given
lowercase). -/
def ciStarts (word : List Char) (cs : List Char) : Bool :=
  (cs.take word.length).map Char.toLower == word

/-- Matcher for `\s*word\s*(\d+(?:\.\d+)?)[:\.\s]` (the `task N` / `section N`
/ `question N` shapes), returning consumed length and the captured number. -/
def matchWordNum (word : List Char) (cs : List Char) : Option (Nat × List Char) :=
  if ciStarts word (cs.drop (wsCount cs)) then
    (numMatches ((cs.drop (wsCount cs)).drop
        (word.length + wsCount ((cs.drop (wsCount cs)).drop word.length)))).findSome?
      (fun nm =>
        match ((cs.drop (wsCount cs)).drop
            (word.length + wsCount ((cs.drop (wsCount cs)).drop word.length))).drop nm.1 with
        | c :: _ =>
          if c = ':' ∨ c = '.' ∨ isWS c then
            some (wsCount cs + word.length +
              wsCount ((cs.drop (wsCount cs)).drop word.length) + nm.1 + 1, nm.2)
          else none
        | [] => none)
  else none

/-- Matcher for the `question N` pattern with its `question|QUESTION|Q`
alternation (case-insensitive, tried in order). -/
def matchQuestionNum (cs : List Char) : Option (Nat × List Char) :=
  match matchWordNum ("question".toList) cs with
  | some r => some r
  | none => matchWordNum ("q".toList) cs

/-- Matcher for `\s*(\d+(?:\.\d+)?)\s*[\.\)]\s*word` (the `N. task` shapes). -/
def matchNumWord (word : List Char) (cs : List Char) : Option (Nat × List Char) :=
  (numMatches (cs.drop (wsCount cs))).findSome? (fun nm =>
    match ((cs.drop (wsCount cs)).drop
        (nm.1 + wsCount ((cs.drop (wsCount cs)).drop nm.1))) with
    | c :: cs3 =>
      if c = '.' ∨ c = ')' then
        if ciStarts word (cs3.drop (wsCount cs3)) then
          some (wsCount cs + nm.1 + wsCount ((cs.drop (wsCount cs)).drop nm.1) + 1 +
            wsCount cs3 + word.length, nm.2)
        else none
      else none
    | [] => none)

/-- Matcher for `\s*(\d+(?:\.\d+)?)\s*[\.\)]\s+` (bare numbered items). -/
def matchNumItem (cs : List Char) : Option (Nat × List Char) :=
  (numMatches (cs.drop (wsCount cs))).findSome? (fun nm =>
    match ((cs.drop (wsCount cs)).drop
        (nm.1 + wsCount ((cs.drop (wsCount cs)).drop nm.1))) with
    | c :: cs3 =>
      if (c = '.' ∨ c = ')') ∧ 1 ≤ wsCount cs3 then
        some (wsCount cs + nm.1 + wsCount ((cs.drop (wsCount cs)).drop nm.1) + 1 +
          wsCount cs3, nm.2)
      else none
    | [] => none)

/-- Matcher for `\s*([a-zA-Z])\s*[\.\)]\s+` (lettered items). -/
def matchLetterItem (cs : List Char) : Option (Nat × List Char) :=
  match cs.drop (wsCount cs) with
  | c :: cs1 =>
    if c.isAlpha then
      match cs1.drop (wsCount cs1) with
      | d :: cs2 =>
        if (d = '.' ∨ d = ')') ∧ 1 ≤ wsCount cs2 then
          some (wsCount cs + 1 + wsCount cs1 + 1 + wsCount cs2, [c])
        else none
      | [] => none
    else none
  | [] => none

/-- The `(?:^|\n)` head of every pattern (the `m` flag makes `^` match at
every line start): try the `^` alternative first when at a line start, then
the alternative that consumes a literal `'\n'`. -/
def tryPatternAt (pat : List Char → Option (Nat × List Char)) (lineStart : Bool)
    (cs : List Char) : Option (Nat × List Char) :=
  match (if lineStart then pat cs else none) with
  | some r => some r
  | none =>
    match cs with
    | '\n' :: rest => (pat rest).map (fun r => (r.1 + 1, r.2))
    | _ => none

/-- A marker match recorded by the scanning loop (part_005 lines 88-99):
captured number text, match index, and pattern class. -/
structure FoundItem where
  number : List Char
  index : Nat
  type : String
deriving DecidableEq, Repr

/-- The `exec` loop for one pattern with the `g` flag: scan left to right,
and at each match record it and resume searching at the match end.  The
`lineStart` flag tracks whether the previous character was a newline.
Fuel-indexed; fuel equal to the string length is always sufficient (every
match consumes at least one character). -/
def scanPatternF (pat : List Char → Option (Nat × List Char)) (ty : String) :
    Nat → List Char → Nat → Bool → List FoundItem
  | _, [], _, _ => []
  | 0, _ :: _, _, _ => []
  | Nat.succ fuel, c :: rest, pos, lineStart =>
    match tryPatternAt pat lineStart (c :: rest) with
    | some r =>
      ⟨r.2, pos, ty⟩ ::
        scanPatternF pat ty fuel (rest.drop (r.1 - 1)) (pos + r.1)
          (((c :: rest).take r.1).getLast? == some '\n')
    | none => scanPatternF pat ty fuel rest (pos + 1) (c == '\n')

/-- All matches of one pattern over the content. -/
def scanPattern (pat : List Char → Option (Nat × List Char)) (ty : String)
    (content : List Char) : List FoundItem :=
  scanPatternF pat ty content.length content 0 true

/-- The eight marker patterns of `detectQuestions` (part_005 lines 68-86) in
source order, with the class assigned by pattern index (`task/section` for the
first four, `question` for the next two, `numbered` for the rest). -/
def patternScans (content : List Char) : List (List FoundItem) := [
  scanPattern (matchWordNum ("task".toList)) "task/section" content,
  scanPattern (matchNumWord ("task".toList)) "task/section" content,
  scanPattern (matchWordNum ("section".toList)) "task/section" content,
  scanPattern (matchNumWord ("section".toList)) "task/section" content,
  scanPattern matchQuestionNum "question" content,
  scanPattern (matchNumWord ("question".toList)) "question" content,
  scanPattern matchNumItem "numbered" content,
  scanPattern matchLetterItem "numbered" content]

/-- `foundItems` before sorting: all patterns' matches in pattern order. -/
def foundAllMarkers (content : List Char) : List FoundItem :=
  (patternScans content).flatten

/-- Stable insertion of one item into an index-sorted list: the new item goes
after every already-present item with an index less than or equal to its
own. -/
def insertByIndex (x : FoundItem) : List FoundItem → List FoundItem
  | [] => [x]
  | y :: ys => if y.index ≤ x.index then y :: insertByIndex x ys else x :: y :: ys

/-- `foundItems.sort((a, b) => a.index - b.index)` — a stable sort by match
index (JS `Array.prototype.sort` is stable), as a stable insertion sort. -/
def sortFound (items : List FoundItem) : List FoundItem :=
  items.foldl (fun acc x => insertByIndex x acc) []

/-- A detected question/section unit (part_005 lines 54-59). -/
structure DetectedQuestion where
  number : String
  content : List Char
  estimatedMarks : Nat
  topic : String
deriving DecidableEq, Repr

/-- Keyword presence count of one topic row against the lowercased content. -/
def topicScore (lower : List Char) (kws : List String) : Nat :=
  kws.countP (fun k => subListSearch (k.toList.map Char.toLower) lower)

/-- `detectTopicFromContent`: the topic with the strictly highest keyword
count, ties and the no-match case falling to the earlier entry or the
`General Topic` default. -/
def detectTopicFromContent (content : List Char) : String :=
  (TOPIC_KEYWORDS.foldl
    (fun best p =>
      if best.2 < topicScore (lowerStr content) p.2 then (p.1, topicScore (lowerStr content) p.2)
      else best)
    ("General Topic", 0)).1

/-- `estimateMarksFromContent` (the topic argument is unused in the source):
marks from the word count with a flat ceiling of 5. -/
def estimateMarksFromContent (content : List Char) : Nat :=
  if wordCount content < 20 then 2
  else if wordCount content < 50 then 3
  else if wordCount content < 100 then 5
  else 5

/-- The display label of a marker (part_005 lines 122-128).  The type string
`task/section` always contains `task`, so that class always renders as
`Task N`; the `question` class renders as `Q N`; bare numbered and lettered
items keep the captured text. -/
def formatNumber (item : FoundItem) : String :=
  if item.type = "task/section" then
    if subListSearch ("task".toList) item.type.toList then "Task " ++ String.mk item.number
    else "Section " ++ String.mk item.number
  else if item.type = "question" then "Q" ++ String.mk item.number
  else String.mk item.number

/-- The extraction loop over the sorted markers (part_005 lines 106-137):
skip duplicate indices, take the span up to the next array element (or the end
of the document), trim it, and keep it as a unit when longer than 10
characters. -/
def extractQuestions (content : List Char) : List FoundItem → List Nat → List DetectedQuestion
  | [], _ => []
  | item :: rest, seen =>
    if item.index ∈ seen then extractQuestions content rest seen
    else
      if 10 < (trim ((content.take (match rest with
          | next :: _ => next.index
          | [] => content.length)).drop item.index)).length then
        ⟨formatNumber item,
          trim ((content.take (match rest with
            | next :: _ => next.index
            | [] => content.length)).drop item.index),
          estimateMarksFromContent (trim ((content.take (match rest with
            | next :: _ => next.index
            | [] => content.length)).drop item.index)),
          detectTopicFromContent (trim ((content.take (match rest with
            | next :: _ => next.index
            | [] => content.length)).drop item.index))⟩ ::
          extractQuestions content rest (item.index :: seen)
      else extractQuestions content rest (item.index :: seen)

/-- The no-marker fallback (part_005 lines 140-153), as the indexed `forEach`:
blank-line paragraphs whose trimmed length exceeds 50 characters become
`Section k` units (topic and marks computed on the untrimmed paragraph, the
stored content trimmed). -/
def fallbackFrom (k : Nat) : List (List Char) → List DetectedQuestion
  | [] => []
  | s :: rest =>
    ⟨"Section " ++ toString (k + 1), trim s, estimateMarksFromContent s,
      detectTopicFromContent s⟩ :: fallbackFrom (k + 1) rest

/-- The fallback sections of `detectQuestions`. -/
def fallbackSections (content : List Char) : List DetectedQuestion :=
  fallbackFrom 0 ((paraSplit content).filter fun s => 50 < (trim s).length)

/-- `detectQuestions` from part_005 lines 54-156: marker-based units, or the
blank-line fallback when the marker pass produced none. -/
def detectQuestions (content : List Char) : List DetectedQuestion :=
  if extractQuestions content (sortFound (foundAllMarkers content)) [] = [] then
    fallbackSections content
  else extractQuestions content (sortFound (foundAllMarkers content)) []

/-- The fallback labels are `Section k+1, Section k+2, …` in order. -/
theorem fallbackFrom_map_number : ∀ (l : List (List Char)) (k : Nat),
    (fallbackFrom k l).map (fun q => q.number) =
      (List.range l.length).map (fun i => "Section " ++ toString (k + i + 1)) := by
  intro l
  induction l with
  | nil => intro k; rfl
  | cons s rest ih =>
    intro k
    have h0 : k + 0 + 1 = k + 1 := by omega
    rw [fallbackFrom]
    simp only [List.map_cons, List.length_cons, List.range_succ_eq_map, List.map_map]
    rw [ih (k + 1), h0]
    congr 1
    apply List.map_congr_left
    intro i _
    simp only [Function.comp_apply]
    have h3 : k + 1 + i + 1 = k + Nat.succ i + 1 := by omega
    rw [h3]

/-- The fallback contents are the trimmed kept paragraphs in order. -/
theorem fallbackFrom_map_content : ∀ (l : List (List Char)) (k : Nat),
    (fallbackFrom k l).map (fun q => q.content) = l.map trim := by
  intro l
  induction l with
  | nil => intro k; rfl
  | cons s rest ih =>
    intro k
    rw [fallbackFrom]
    simp only [List.map_cons, ih (k + 1)]

/-- C7 amended: on input where no marker pattern matches anywhere,
`detectQuestions` falls back to blank-line paragraph splitting, keeps exactly
the paragraphs whose trimmed length exceeds 50 characters, labels them
`Section 1, Section 2, …` in document order, and stores the trimmed paragraph
as each unit's content. -/
theorem detectQuestions_no_markers (content : List Char)
    (h : foundAllMarkers content = []) :
    detectQuestions content = fallbackSections content ∧
      (detectQuestions content).map (fun q => q.number) =
        (List.range ((paraSplit content).filter (fun s => 50 < (trim s).length)).length).map
          (fun i => "Section " ++ toString (i + 1)) ∧
      (detectQuestions content).map (fun q => q.content) =
        ((paraSplit content).filter (fun s => 50 < (trim s).length)).map trim := by
  have hdet : detectQuestions content = fallbackSections content := by
    rw [detectQuestions, h]
    rfl
  refine ⟨hdet, ?_, ?_⟩
  · rw [hdet, fallbackSections, fallbackFrom_map_number]
    apply List.map_congr_left
    intro i _
    have h3 : 0 + i + 1 = i + 1 := by omega
    rw [h3]
  · rw [hdet, fallbackSections, fallbackFrom_map_content]

/-- A markerless text of two long blank-line-separated paragraphs. -/
def exC7 : List Char :=
  ("this paragraph one has plenty of characters to pass fifty easily\n\n" ++
    "paragraph two also has plenty of characters to pass fifty easily").toList

/-- Witness for the amended C7: the two-paragraph markerless text yields
exactly the two fallback units labelled Section 1 and Section 2. -/
theorem detectQuestions_no_markers_witness :
    foundAllMarkers exC7 = [] ∧
      (detectQuestions exC7 = fallbackSections exC7 ∧
        (detectQuestions exC7).map (fun q => q.number) =
          (List.range ((paraSplit exC7).filter (fun s => 50 < (trim s).length)).length).map
            (fun i => "Section " ++ toString (i + 1)) ∧
        (detectQuestions exC7).map (fun q => q.content) =
          ((paraSplit exC7).filter (fun s => 50 < (trim s).length)).map trim) :=
  ⟨by decide, detectQuestions_no_markers exC7 (by decide)⟩

/-- A markerless text whose second paragraph is longer than 50 characters but
trims to a single character. -/
def exC7pad : List Char :=
  List.replicate 60 'a' ++ '\n' :: '\n' :: 'b' :: List.replicate 55 ' '

/-- C7 counterexample: both blank-line paragraphs of this markerless text are
longer than 50 characters, yet `detectQuestions` keeps only one unit — the
filter tests the trimmed length, so the whitespace-padded second paragraph is
dropped, refuting the claim that exactly the paragraphs longer than 50
characters are kept (and that this text yields 2 units). -/
theorem detectQuestions_counterexample :
    foundAllMarkers exC7pad = [] ∧
      (paraSplit exC7pad).length = 2 ∧
      (∀ s ∈ paraSplit exC7pad, 50 < s.length) ∧
      (detectQuestions exC7pad).length = 1 := by
  refine ⟨by decide, by decide, by decide, by decide⟩

/-- JS `Math.round` on a finite number: round half toward positive
infinity. -/
def jsRound (x : ℚ) : Int :=
  Int.floor (x + 1 / 2)

/-- Per-question analysis record (part_005 lines 3-11). -/
structure QuestionAnalysis where
  questionNumber : String
  topic : String
  maxMarks : Nat
  awardedMarks : Int
  hasAnswer : Bool
  contentQuality : String
  reasoning : String
deriving DecidableEq, Repr

/-- The per-question mapping of `generateImprovedMarkingReport` (part_005
lines 293-306): `awardedMarks = Math.round(estimatedMarks * score)`. -/
def analyzeQuestion (q : DetectedQuestion) : QuestionAnalysis :=
  ⟨q.number, q.topic, q.estimatedMarks,
    jsRound ((q.estimatedMarks : ℚ) * (analyzeAnswerQuality q.content q.topic).score),
    (analyzeAnswerQuality q.content q.topic).quality != "missing",
    (analyzeAnswerQuality q.content q.topic).quality,
    (analyzeAnswerQuality q.content q.topic).reasoning⟩

/-- `questionAnalysis.reduce((sum, q) => sum + q.maxMarks, 0)`. -/
def totalAvail (qs : List QuestionAnalysis) : Nat :=
  qs.foldl (fun s q => s + q.maxMarks) 0

/-- `questionAnalysis.reduce((sum, q) => sum + q.awardedMarks, 0)`. -/
def totalAward (qs : List QuestionAnalysis) : Int :=
  qs.foldl (fun s q => s + q.awardedMarks) 0

/-- `Math.round((totalMarksAwarded / totalMarksAvailable) * 100)` as a JS
number: with `totalMarksAvailable = 0` the division is `0/0 = NaN` (or `±∞`
for a nonzero numerator) and `Math.round` propagates it; the non-finite
outcome is modelled as `none`. -/
def percentageOf (awarded : Int) (available : Nat) : Option Int :=
  if available = 0 then none
  else some (jsRound ((awarded : ℚ) / (available : ℚ) * 100))

/-- The grade bands (part_005 lines 313-319).  Every JS comparison against
NaN is false, so a NaN percentage falls through to `F (Fail)`. -/
def gradeOf : Option Int → String
  | some p =>
    if 90 ≤ p then "A+ (Outstanding)"
    else if 80 ≤ p then "A (Excellent)"
    else if 70 ≤ p then "B (Good)"
    else if 60 ≤ p then "C (Satisfactory)"
    else if 50 ≤ p then "D (Pass)"
    else "F (Fail)"
  | none => "F (Fail)"

/-- Result record of the local marking engine (part_005 lines 13-25), with
`percentage` as a possibly-NaN JS number. -/
structure ImprovedMarkingResult where
  studentName : String
  assignmentTitle : String
  totalQuestions : Nat
  totalMarksAvailable : Nat
  totalMarksAwarded : Int
  percentage : Option Int
  grade : String
  questionAnalysis : List QuestionAnalysis
  markingMethod : String
  tokensSaved : Nat
  markingCriteria : String
deriving DecidableEq, Repr

/-- `generateImprovedMarkingReport` from part_005 lines 281-336.  The `memo`
parameter is only logged by the source and does not influence the result. -/
def generateImprovedMarkingReport (content : List Char)
    (studentName assignmentTitle : String) (memo : Option String) :
    ImprovedMarkingResult :=
  ⟨studentName, assignmentTitle,
    ((detectQuestions content).map analyzeQuestion).length,
    totalAvail ((detectQuestions content).map analyzeQuestion),
    totalAward ((detectQuestions content).map analyzeQuestion),
    percentageOf (totalAward ((detectQuestions content).map analyzeQuestion))
      (totalAvail ((detectQuestions content).map analyzeQuestion)),
    gradeOf (percentageOf (totalAward ((detectQuestions content).map analyzeQuestion))
      (totalAvail ((detectQuestions content).map analyzeQuestion))),
    (detectQuestions content).map analyzeQuestion,
    "Improved Local Analysis (Zero AI tokens used)",
    (content.length + 3) / 4 + 2000,
    "Full marks for direct, correct answers. Generous scoring for demonstrated understanding and effort."⟩

/-- Keyword coverage is nonnegative. -/
theorem keywordCoverage_nonneg (c : List Char) (t : String) : 0 ≤ keywordCoverage c t := by
  rw [keywordCoverage]
  split
  · positivity
  · exact le_refl 0

/-- The additive score is nonnegative. -/
theorem rawScore_nonneg (c : List Char) (t : String) : 0 ≤ rawScore c t := by
  rw [rawScore]
  have h1 : 0 ≤ keywordCoverage c t * 0.30 :=
    mul_nonneg (keywordCoverage_nonneg c t) (by norm_num)
  have e2 : (0:ℚ) ≤ if 40 ≤ wordCount c then (0.06:ℚ) else 0 := by split <;> norm_num
  have e3 : (0:ℚ) ≤ if 80 ≤ wordCount c then (0.08:ℚ) else 0 := by split <;> norm_num
  have e4 : (0:ℚ) ≤ if 120 ≤ wordCount c then (0.04:ℚ) else 0 := by split <;> norm_num
  have e5 : (0:ℚ) ≤ if hasExplanation c = true then (0.09:ℚ) else 0 := by
    split <;> norm_num
  have e6 : (0:ℚ) ≤ if hasExamples c = true then (0.06:ℚ) else 0 := by split <;> norm_num
  have e7 : (0:ℚ) ≤ if 15 ≤ wordCount c then (0.04:ℚ) else 0 := by split <;> norm_num
  linarith

/-- The penalized score is nonnegative. -/
theorem zeroCoveragePenalized_nonneg (c : List Char) (t : String) :
    0 ≤ zeroCoveragePenalized c t := by
  have hr := rawScore_nonneg c t
  rw [zeroCoveragePenalized, penalizedScore]
  split_ifs <;> nlinarith [hr]

/-- The quality score always lies in [0, 0.95]. -/
theorem score_bounds (c : List Char) (t : String) :
    0 ≤ (analyzeAnswerQuality c t).score ∧ (analyzeAnswerQuality c t).score ≤ 0.95 := by
  rw [analyzeAnswerQuality]
  split
  · constructor <;> norm_num
  · constructor
    · show 0 ≤ finalScore c t
      rw [finalScore]
      exact le_min (zeroCoveragePenalized_nonneg c t) (by norm_num)
    · show finalScore c t ≤ 0.95
      rw [finalScore]
      exact min_le_right _ _

/-- Rounding `maxMarks × score` with `score ∈ [0, 0.95]` stays between 0 and
`maxMarks`. -/
theorem jsRound_bounds (m : Nat) (s : ℚ) (h0 : 0 ≤ s) (h95 : s ≤ 0.95) :
    0 ≤ jsRound ((m : ℚ) * s) ∧ jsRound ((m : ℚ) * s) ≤ (m : Int) := by
  have hm : (0:ℚ) ≤ (m:ℚ) := by positivity
  constructor
  · rw [jsRound]
    apply Int.le_floor.mpr
    push_cast
    nlinarith [mul_nonneg hm h0]
  · have h2 : jsRound ((m:ℚ) * s) < (m : Int) + 1 := by
      rw [jsRound]
      apply Int.floor_lt.mpr
      push_cast
      nlinarith [hm]
    omega

/-- Every analysed question is awarded between 0 and its maximum marks. -/
theorem report_q_bounds (content : List Char) :
    ∀ q ∈ (detectQuestions content).map analyzeQuestion,
      0 ≤ q.awardedMarks ∧ q.awardedMarks ≤ (q.maxMarks : Int) := by
  intro q hq
  rcases List.mem_map.mp hq with ⟨dq, _, rfl⟩
  have hs := score_bounds dq.content dq.topic
  exact jsRound_bounds dq.estimatedMarks _ hs.1 hs.2

/-- Folded awarded totals stay below folded available totals. -/
theorem totalAward_le_totalAvail : ∀ (qs : List QuestionAnalysis) (a : Int) (b : Nat),
    (∀ q ∈ qs, 0 ≤ q.awardedMarks ∧ q.awardedMarks ≤ (q.maxMarks : Int)) →
    a ≤ (b : Int) →
    qs.foldl (fun s q => s + q.awardedMarks) a ≤
      ((qs.foldl (fun s q => s + q.maxMarks) b : Nat) : Int) := by
  intro qs
  induction qs with
  | nil => intro a b _ hab; simpa using hab
  | cons q rest ih =>
    intro a b h hab
    rw [List.foldl_cons, List.foldl_cons]
    apply ih (a + q.awardedMarks) (b + q.maxMarks)
    · intro x hx
      exact h x (by simp [hx])
    · have hq := h q (by simp)
      push_cast
      omega

/-- Folded awarded totals stay nonnegative. -/
theorem totalAward_nonneg : ∀ (qs : List QuestionAnalysis) (a : Int),
    (∀ q ∈ qs, 0 ≤ q.awardedMarks) → 0 ≤ a →
    0 ≤ qs.foldl (fun s q => s + q.awardedMarks) a := by
  intro qs
  induction qs with
  | nil => intro a _ ha; simpa using ha
  | cons q rest ih =>
    intro a h ha
    rw [List.foldl_cons]
    apply ih (a + q.awardedMarks)
    · intro x hx
      exact h x (by simp [hx])
    · have hq := h q (by simp)
      omega

/-- A positive-denominator percentage is a finite value between 0 and 100. -/
theorem percentage_bounds (A : Int) (T : Nat) (hT : 0 < T) (h0 : 0 ≤ A)
    (hle : A ≤ (T : Int)) :
    ∃ p, percentageOf A T = some p ∧ 0 ≤ p ∧ p ≤ 100 := by
  have hTq : (0:ℚ) < (T:ℚ) := by exact_mod_cast hT
  have hx0 : (0:ℚ) ≤ (A:ℚ) / (T:ℚ) * 100 := by
    apply mul_nonneg _ (by norm_num)
    apply div_nonneg _ (le_of_lt hTq)
    exact_mod_cast h0
  have hx1 : (A:ℚ) / (T:ℚ) ≤ 1 := by
    rw [div_le_one hTq]
    exact_mod_cast hle
  refine ⟨jsRound ((A : ℚ) / (T : ℚ) * 100), ?_, ?_, ?_⟩
  · rw [percentageOf, if_neg (by omega)]
  · rw [jsRound]
    apply Int.le_floor.mpr
    push_cast
    linarith
  · have h2 : jsRound ((A:ℚ) / (T:ℚ) * 100) < 101 := by
      rw [jsRound]
      apply Int.floor_lt.mpr
      push_cast
      linarith
    omega

/-- C9: in the local marking pipeline every detected question is awarded
`Math.round(maxMarks × score)` with score in [0, 0.95], hence between 0 and
its maximum marks; consequently the awarded total never exceeds the available
total, and whenever marks are available the reported percentage is a finite
value between 0 and 100. -/
theorem marking_report_invariants (content : List Char)
    (studentName assignmentTitle : String) (memo : Option String) :
    (∀ dq ∈ detectQuestions content,
        (analyzeQuestion dq).awardedMarks =
          jsRound ((dq.estimatedMarks : ℚ) * (analyzeAnswerQuality dq.content dq.topic).score) ∧
        0 ≤ (analyzeAnswerQuality dq.content dq.topic).score ∧
        (analyzeAnswerQuality dq.content dq.topic).score ≤ 0.95) ∧
    (∀ q ∈ (generateImprovedMarkingReport content studentName assignmentTitle
        memo).questionAnalysis,
      0 ≤ q.awardedMarks ∧ q.awardedMarks ≤ (q.maxMarks : Int)) ∧
    (generateImprovedMarkingReport content studentName assignmentTitle
        memo).totalMarksAwarded ≤
      ((generateImprovedMarkingReport content studentName assignmentTitle
        memo).totalMarksAvailable : Int) ∧
    (0 < (generateImprovedMarkingReport content studentName assignmentTitle
        memo).totalMarksAvailable →
      ∃ p, (generateImprovedMarkingReport content studentName assignmentTitle
          memo).percentage = some p ∧ 0 ≤ p ∧ p ≤ 100) := by
  refine ⟨?_, ?_, ?_, ?_⟩
  · intro dq _
    exact ⟨rfl, (score_bounds dq.content dq.topic).1, (score_bounds dq.content dq.topic).2⟩
  · exact report_q_bounds content
  · show totalAward ((detectQuestions content).map analyzeQuestion) ≤
      ((totalAvail ((detectQuestions content).map analyzeQuestion) : Nat) : Int)
    exact totalAward_le_totalAvail _ 0 0 (report_q_bounds content) (by norm_num)
  · intro hpos
    apply percentage_bounds
    · exact hpos
    · exact totalAward_nonneg _ 0 (fun q hq => (report_q_bounds content q hq).1) le_rfl
    · exact totalAward_le_totalAvail _ 0 0 (report_q_bounds content) (by norm_num)

/-- A one-paragraph markerless document, long enough to yield one unit. -/
def ex9 : List Char :=
  "the quick brown fox jumps over the lazy dog near the river bank".toList

/-- Witness for C9: on a document with one detected unit, the available marks
are positive and the reported percentage is finite and within bounds. -/
theorem marking_report_invariants_witness :
    0 < (generateImprovedMarkingReport ex9 "s" "t" none).totalMarksAvailable ∧
      ∃ p, (generateImprovedMarkingReport ex9 "s" "t" none).percentage = some p ∧
        0 ≤ p ∧ p ≤ 100 :=
  ⟨by decide, (marking_report_invariants ex9 "s" "t" none).2.2.2 (by decide)⟩

/-- C10: on a short markerless document with no long paragraph,
`detectQuestions` returns no units, the available total is 0, and the
percentage is the unguarded `Math.round((0 / 0) * 100)` — not a number
(modelled as `none`) rather than a rejected computation or an omitted
field. -/
theorem marking_report_nan_percentage :
    detectQuestions ("hi".toList) = [] ∧
      (generateImprovedMarkingReport ("hi".toList) "s" "t" none).totalMarksAvailable = 0 ∧
      (generateImprovedMarkingReport ("hi".toList) "s" "t" none).percentage = none := by
  refine ⟨by decide, by decide, by decide⟩

end AiMarker
